import Mathlib

/-!
Shallow embedding of `src/gpio_tally.c` (CinePi5 GPIO tally driver).

The driver exposes one boolean output (`led_state`, mirrored on a GPIO
line) through a sysfs attribute (`state_show` / `state_store`) and a
character device (`tally_read` / `tally_write`).  Construction is
`gpio_tally_probe`, destruction `gpio_tally_remove`; ids come from an IDA
(`ida_alloc` / `ida_free`).

Modelling conventions:
  * kernel error codes become the inductive `Err` (`-EINVAL ↦ Err.EINVAL`
    and so on); a fallible call returns `Except Err α`;
  * the GPIO drive primitive `gpiod_set_value_cansleep` returns `void` in
    the kernel, so the code can never observe its failure; we model the
    possibility of a silent drive failure with a `driveOk : Bool` oracle:
    when it is `false` the physical line keeps its old value, while the
    code behaves exactly as written (it has no status to check);
  * the mutex serialises each operation; an operation is embedded as a
    pure function from the pre-state to (result, post-state);
  * user-space memory access (`get_user`) is modelled by an
    `Option Char`: the byte at the user pointer, `none` meaning the page
    is unmapped (`-EFAULT`).
-/

/-- Kernel error codes that appear in `gpio_tally.c` and in the helpers it
calls (`kstrtoul`, `ida_alloc`, `devm_gpiod_get`, ...). -/
inductive Err where
  | EINVAL
  | ERANGE
  | EFAULT
  | ENOMEM
  | ENOSPC
  | ENODEV
deriving DecidableEq, Repr

/-- The mutable per-instance state of `struct gpio_tally_data` that the
file operations touch: the cached boolean `led_state` and the physical
value of the GPIO line it drives.  (`id`, `name`, `devno`, the mutex and
the device pointers are construction-time data, modelled separately.) -/
structure GpioTallyData where
  led_state : Bool
  line : Bool
deriving DecidableEq, Repr

/-- Decimal value of a digit string, as `_parse_integer` accumulates it:
`val = val * 10 + (c - '0')`. -/
def decVal (ds : List Char) : Nat :=
  ds.foldl (fun a c => a * 10 + (c.toNat - 48)) 0

/-- The kernel's `kstrtoull` skips one leading `'+'` before parsing. -/
def stripPlus : List Char → List Char
  | c :: t => if c = '+' then t else c :: t
  | [] => []

/-- One past the largest `unsigned long` on the 64-bit target (arm64):
`_parse_integer` reports overflow exactly when the accumulated value
reaches this bound. -/
def ULONG_MAX_SUCC : Nat := 2 ^ 64

/-- Embedding of the kernel's `kstrtoul(buf, 10, &val)` as called by
`state_store`: skip an optional `'+'`, take the maximal run of decimal
digits, fail with `ERANGE` when the run's value overflows
`unsigned long`, with `EINVAL` when there are no digits, tolerate exactly
one trailing `'\n'`, and fail with `EINVAL` on any other trailing byte. -/
def kstrtoul (s : List Char) : Except Err Nat :=
  let s1 := stripPlus s
  let ds := s1.takeWhile Char.isDigit
  let rest := s1.dropWhile Char.isDigit
  if ULONG_MAX_SUCC ≤ decVal ds then .error .ERANGE
  else if ds.isEmpty then .error .EINVAL
  else
    let rest2 := match rest with
      | '\n' :: t => t
      | r => r
    if rest2.isEmpty then .ok (decVal ds) else .error .EINVAL

/-- Embedding of `state_show`: under the mutex, read `led_state` into `int state`,
then `sprintf(buf, "%d\n", state)` — the two characters `'0'` or `'1'`
followed by a newline. -/
def state_show (d : GpioTallyData) : List Char :=
  [if d.led_state then '1' else '0', '\n']

/-- Embedding of `state_store`: `kstrtoul(buf, 10, &val)`; on parse error return that
error with nothing mutated; otherwise clamp (`val = !!val`), assign
`led_state`, drive the line (`gpiod_set_value_cansleep`, whose failure
the code cannot observe: on a failed drive the physical line keeps its
old value) and return `count`, the length of the incoming buffer. -/
def state_store (driveOk : Bool) (d : GpioTallyData) (buf : List Char) :
    Except Err Nat × GpioTallyData :=
  match kstrtoul buf with
  | .error e => (.error e, d)
  | .ok v =>
    let b := v != 0
    (.ok buf.length, ⟨b, if driveOk then b else d.line⟩)

/-- Embedding of `tally_read`: format `['0' + led_state, '\n']` under the mutex, then
`simple_read_from_buffer(buf, count, f_pos, state, 2)`: nothing once
`*f_pos ≥ 2`, otherwise `min count (2 - *f_pos)` bytes starting at
`*f_pos`, advancing `*f_pos` by the number copied.  Result:
((bytes produced, new file position), unchanged device state). -/
def tally_read (d : GpioTallyData) (fpos count : Nat) :
    (List Char × Nat) × GpioTallyData :=
  let st := [Char.ofNat (48 + (if d.led_state then 1 else 0)), '\n']
  if 2 ≤ fpos then (([], fpos), d)
  else
    let n := min count (2 - fpos)
    (((st.drop fpos).take n, fpos + n), d)

/-- Embedding of `tally_write`: `get_user(val, buf)` reads the single byte at the user
pointer (the byte-count argument `count` is never consulted by the code);
`'0'`/`'1'` set `led_state` and drive the line, anything else returns
`-EINVAL` under rate-limited logging, an unmapped user page returns
`-EFAULT`.  On success the return value is 1. -/
def tally_write (driveOk : Bool) (d : GpioTallyData) (userByte : Option Char)
    (count : Nat) : Except Err Nat × GpioTallyData :=
  match userByte with
  | none => (.error .EFAULT, d)
  | some val =>
    if val = '0' then
      (.ok 1, ⟨false, if driveOk then false else d.line⟩)
    else if val = '1' then
      (.ok 1, ⟨true, if driveOk then true else d.line⟩)
    else
      (.error .EINVAL, d)

/-- Outcomes of the fallible external steps `gpio_tally_probe` performs,
in program order: `devm_kzalloc`, `ida_alloc`, `devm_gpiod_get`,
`alloc_chrdev_region`, `cdev_add`, `device_create`,
`device_create_file`. -/
structure ProbeSteps where
  kzallocOk : Bool
  idaRes : Except Err Nat
  gpiodRes : Except Err Unit
  chrdevRes : Except Err Unit
  cdevAddRes : Except Err Unit
  devCreateRes : Except Err Unit
  createFileRes : Except Err Unit

/-- Which sub-resources are still held when `gpio_tally_probe` returns:
the IDA id, the chrdev region, the added cdev, the created device and
the created attribute file. -/
structure HeldRes where
  id : Bool
  chrdev : Bool
  cdev : Bool
  device : Bool
  attrFile : Bool
deriving DecidableEq, Repr

/-- The controller a successful probe leaves behind: its id, the cached
`led_state` and the physical line value. -/
structure TallyCtrl where
  id : Nat
  led_state : Bool
  line : Bool
deriving DecidableEq, Repr

/-- Embedding of `gpio_tally_probe`.  `initialParam` is the
`initial_state` module parameter (an `int`; its conversion to
`bool dt_initial_state` is `!= 0`), `hasInitialOn` the presence of the
`"initial-on"` device property, which forces the initial state to true.
Control flow follows the source: each failing step returns its error;
`alloc_chrdev_region` failure takes `goto err_free_ida` (id released),
`cdev_add` failure `goto err_unregister_chrdev`, `device_create` failure
`goto err_cdev_del`, `device_create_file` failure
`goto err_device_destroy` — each label falls through the ones below it,
so all of those paths release everything including the id.  The
`devm_gpiod_get` failure path, however, is a plain
`return dev_err_probe(...)` with no goto: the allocated id stays held.
On success `led_state = line = dt_initial_state` (`devm_gpiod_get` gets
the line at `GPIOD_OUT_LOW`, then `gpiod_direction_output` drives it to
`led_state`). -/
def gpio_tally_probe (initialParam : Int) (hasInitialOn : Bool)
    (st : ProbeSteps) : Except Err TallyCtrl × HeldRes :=
  let dtInitial := if hasInitialOn then true else initialParam != 0
  if st.kzallocOk = false then (.error .ENOMEM, ⟨false, false, false, false, false⟩)
  else
    match st.idaRes with
    | .error e => (.error e, ⟨false, false, false, false, false⟩)
    | .ok theId =>
      match st.gpiodRes with
      | .error e => (.error e, ⟨true, false, false, false, false⟩)
      | .ok _ =>
        match st.chrdevRes with
        | .error e => (.error e, ⟨false, false, false, false, false⟩)
        | .ok _ =>
          match st.cdevAddRes with
          | .error e => (.error e, ⟨false, false, false, false, false⟩)
          | .ok _ =>
            match st.devCreateRes with
            | .error e => (.error e, ⟨false, false, false, false, false⟩)
            | .ok _ =>
              match st.createFileRes with
              | .error e => (.error e, ⟨false, false, false, false, false⟩)
              | .ok _ =>
                (.ok ⟨theId, dtInitial, dtInitial⟩, ⟨true, true, true, true, true⟩)

/-- Smallest id not in the allocated list: the kernel IDA hands out the
lowest free id, and among `0 .. l.length` at least one is free. -/
def smallestFree (l : List Nat) : Nat :=
  match (List.range (l.length + 1)).filter (fun n => !l.contains n) with
  | n :: _ => n
  | [] => 0

/-- `ida_alloc(&tally_ida, GFP_KERNEL)` against an allocated-id list. -/
def idaAlloc (l : List Nat) : Nat := smallestFree l

/-- Global state of the driver's id management: the ids currently held
inside `tally_ida`, and the ids of the currently-live (successfully
probed, not yet removed) controllers. -/
structure TallySys where
  ida : List Nat
  live : List Nat
deriving DecidableEq, Repr

/-- One probe or remove, as `gpio_tally_probe` / `gpio_tally_remove`
perform it.  `probeOk` is a fully successful probe: `ida_alloc` returns
the smallest free id and the controller goes live holding it.
`probeFailEarly` is failure at `devm_kzalloc` or inside `ida_alloc`
itself: nothing allocated.  `probeFailGpiod` is the `devm_gpiod_get`
failure path, which returns without `ida_free`: the fresh id stays in
the IDA but no controller holds it.  `probeFailUnwound` is failure at
any later step (`alloc_chrdev_region`, `cdev_add`, `device_create`,
`device_create_file`): the goto chain ends in `ida_free`, so the IDA is
restored.  `removeCtl` is `gpio_tally_remove`: the controller is torn
down and `ida_free` releases its id. -/
inductive SysStep : TallySys → TallySys → Prop
  | probeOk (s : TallySys) :
      SysStep s ⟨idaAlloc s.ida :: s.ida, idaAlloc s.ida :: s.live⟩
  | probeFailEarly (s : TallySys) : SysStep s s
  | probeFailGpiod (s : TallySys) :
      SysStep s ⟨idaAlloc s.ida :: s.ida, s.live⟩
  | probeFailUnwound (s : TallySys) : SysStep s s
  | removeCtl (s : TallySys) (i : Nat) (h : i ∈ s.live) :
      SysStep s ⟨s.ida.erase i, s.live.erase i⟩

/-- States reachable from module load (`tally_ida` empty, no
controllers) by any sequence of probes and removes. -/
inductive SysReach : TallySys → Prop
  | init : SysReach ⟨[], []⟩
  | step {s t : TallySys} : SysReach s → SysStep s t → SysReach t

/-- The id-management invariant: live controllers hold pairwise distinct
ids, and every live id is recorded inside the IDA. -/
def SysInv (s : TallySys) : Prop :=
  s.live.Nodup ∧ ∀ i ∈ s.live, i ∈ s.ida

/-! ## C1: drive failure during set -/

/-- C1 counterexample: with the drive failing (`driveOk = false`), a store
of `"1"` onto a controller whose state is `false` still returns success
(count 1, not a `HardwareWriteFailed` error) and leaves `led_state = true`:
the state does not revert to its pre-call value.  The claim that a failed
line drive is reported and rolled back is false of the code. -/
theorem C1_no_rollback_cex :
    state_store false ⟨false, false⟩ ['1'] = (Except.ok 1, ⟨true, false⟩) ∧
    (state_store false ⟨false, false⟩ ['1']).2.led_state ≠ false := by
  exact ⟨rfl, by decide⟩

/-- C1 amended: `gpiod_set_value_cansleep` returns no status, so a drive
failure is invisible to the code: on either surface the call still
reports success, `state` keeps the newly written value (optimistic, no
rollback), and only the physical line is left at its old value. -/
theorem C1_drive_failure_optimistic :
    (∀ (d : GpioTallyData) (buf : List Char) (v : Nat), kstrtoul buf = .ok v →
      (state_store false d buf).1 = .ok buf.length ∧
      (state_store false d buf).2.led_state = (v != 0) ∧
      (state_store false d buf).2.line = d.line) ∧
    (∀ (d : GpioTallyData) (c : Char), c = '0' ∨ c = '1' →
      ∀ count : Nat,
        (tally_write false d (some c) count).1 = .ok 1 ∧
        (tally_write false d (some c) count).2.led_state = (c == '1') ∧
        (tally_write false d (some c) count).2.line = d.line) := by
  constructor
  · intro d buf v h
    simp [state_store, h]
  · intro d c hc count
    rcases hc with rfl | rfl <;> simp [tally_write]

/-- C1 amended, witness at a concrete input. -/
theorem C1_drive_failure_optimistic_witness :
    (state_store false ⟨true, true⟩ ['0']).1 = .ok 1 ∧
    (state_store false ⟨true, true⟩ ['0']).2.led_state = (0 != 0) ∧
    (state_store false ⟨true, true⟩ ['0']).2.line =
      (⟨true, true⟩ : GpioTallyData).line :=
  C1_drive_failure_optimistic.1 ⟨true, true⟩ ['0'] 0 rfl

/-! ## C2: set/get round trip across both surfaces -/

/-- C2: for every boolean `b`, setting `b` through either surface (an
attribute store of `"0"`/`"1"` or a byte-stream write of the byte
`'0'`/`'1'` — both always succeed) leaves `led_state = b`, and a
subsequent get through either surface (attribute show, or byte-stream
read on a fresh session) renders exactly `b` followed by a newline. -/
theorem C2_set_get_roundtrip (driveOk : Bool) (d : GpioTallyData) (b : Bool) :
    ((state_store driveOk d [if b then '1' else '0']).2.led_state = b) ∧
    ((tally_write driveOk d (some (if b then '1' else '0')) 1).2.led_state = b) ∧
    (state_show ((state_store driveOk d [if b then '1' else '0']).2) =
      [if b then '1' else '0', '\n']) ∧
    (state_show ((tally_write driveOk d (some (if b then '1' else '0')) 1).2) =
      [if b then '1' else '0', '\n']) ∧
    (((tally_read ((state_store driveOk d [if b then '1' else '0']).2) 0 2).1).1 =
      [if b then '1' else '0', '\n']) ∧
    (((tally_read ((tally_write driveOk d (some (if b then '1' else '0')) 1).2) 0 2).1).1 =
      [if b then '1' else '0', '\n']) := by
  cases b <;> cases driveOk <;> exact ⟨rfl, rfl, rfl, rfl, rfl, rfl⟩

/-! ## C4: attribute store clamps parsed values -/

/-- C4: every string the decimal parser accepts is stored: the store
returns the full byte count and sets `led_state` to the clamped value
(`val = !!val`, true exactly for non-zero); in particular storing
`"1"`, `"42"` or `"255"` then showing yields `"1\n"`, and storing `"0"`
then showing yields `"0\n"`. -/
theorem C4_store_clamps :
    (∀ (driveOk : Bool) (d : GpioTallyData) (buf : List Char) (v : Nat),
      kstrtoul buf = .ok v →
        (state_store driveOk d buf).1 = .ok buf.length ∧
        (state_store driveOk d buf).2.led_state = (v != 0)) ∧
    (∀ (driveOk : Bool) (d : GpioTallyData),
      state_show (state_store driveOk d ['1']).2 = ['1', '\n'] ∧
      state_show (state_store driveOk d ['4', '2']).2 = ['1', '\n'] ∧
      state_show (state_store driveOk d ['2', '5', '5']).2 = ['1', '\n'] ∧
      state_show (state_store driveOk d ['0']).2 = ['0', '\n']) := by
  constructor
  · intro driveOk d buf v h
    simp [state_store, h]
  · intro driveOk d
    exact ⟨rfl, rfl, rfl, rfl⟩

/-- C4 witness: storing `"42"` consumes 2 bytes and clamps 42 to true. -/
theorem C4_store_clamps_witness :
    (state_store true ⟨false, false⟩ ['4', '2']).1 = .ok 2 ∧
    (state_store true ⟨false, false⟩ ['4', '2']).2.led_state = (42 != 0) :=
  C4_store_clamps.1 true ⟨false, false⟩ ['4', '2'] 42 rfl

/-! ## C6: zero-length byte-stream write -/

/-- C6: the code never consults `count`.  A zero-length write whose user
pointer happens to address a readable byte `'1'` does not fail with
`InvalidArgument`: `get_user` fetches the out-of-bounds byte, the state
is mutated to true, the line is driven, and the call reports 1 byte
consumed — one more than was supplied. -/
theorem C6_empty_write_bug :
    tally_write true ⟨false, false⟩ (some '1') 0 = (Except.ok 1, ⟨true, true⟩) := rfl

/-! ## C8: cleanup on partial construction failure -/

/-- Probe step outcomes in which `devm_gpiod_get` fails right after
`ida_alloc` has returned id 0. -/
def stepsGpiodFail : ProbeSteps :=
  ⟨true, .ok 0, .error .ENODEV, .ok (), .ok (), .ok (), .ok ()⟩

/-- C8: when `devm_gpiod_get` fails after the id has been allocated, the
probe returns its error through `dev_err_probe` without passing the
`err_free_ida` label: the id is still held (leaked).  By contrast, a
failure at the very next step (`alloc_chrdev_region`) runs the goto
chain and releases the id. -/
theorem C8_gpiod_leak_bug :
    (gpio_tally_probe 0 false stepsGpiodFail).1 = .error .ENODEV ∧
    (gpio_tally_probe 0 false stepsGpiodFail).2.id = true ∧
    (gpio_tally_probe 0 false
      ⟨true, .ok 0, .ok (), .error .ENODEV, .ok (), .ok (), .ok ()⟩).2.id = false :=
  ⟨rfl, rfl, rfl⟩

/-! ## C7: initial-on honored at construction -/

/-- C7: whenever the `"initial-on"` device property is present, a probe
that returns successfully yields a controller with `led_state = true`
and the line driven to true, whatever the `initial_state` module
parameter and whatever the other step outcomes were. -/
theorem C7_initial_on_honored (p : Int) (st : ProbeSteps) (c : TallyCtrl)
    (h : (gpio_tally_probe p true st).1 = Except.ok c) :
    c.led_state = true ∧ c.line = true := by
  obtain ⟨kz, ida, gp, ch, cd, dv, cf⟩ := st
  simp only [gpio_tally_probe] at h
  cases kz <;> cases ida <;> cases gp <;> cases ch <;> cases cd <;> cases dv <;>
    cases cf <;> simp_all
  subst h
  exact ⟨rfl, rfl⟩

/-- Probe step outcomes in which every step succeeds, `ida_alloc`
returning id 0. -/
def stepsAllOk : ProbeSteps :=
  ⟨true, .ok 0, .ok (), .ok (), .ok (), .ok (), .ok ()⟩

/-- C7 witness: module parameter 0 (default off), `"initial-on"`
present, all steps succeed. -/
theorem C7_initial_on_honored_witness :
    (⟨0, true, true⟩ : TallyCtrl).led_state = true ∧
    (⟨0, true, true⟩ : TallyCtrl).line = true :=
  C7_initial_on_honored 0 stepsAllOk ⟨0, true, true⟩ rfl

/-! ## C3: malformed input is rejected without mutation -/

/-- C3 counterexample: `"18446744073709551616"` (2^64) is text that the
decimal parser rejects, but the attribute store fails with `ERANGE`
(out of range), not with `EINVAL` (the code for `InvalidInput`). -/
def overflowDigits : List Char :=
  ['1', '8', '4', '4', '6', '7', '4', '4', '0', '7',
   '3', '7', '0', '9', '5', '5', '1', '6', '1', '6']

/-- C3 counterexample theorem: storing 2^64 fails, but not with
`InvalidInput`/`EINVAL` as the claim states — the error is `ERANGE`. -/
theorem C3_overflow_cex :
    (state_store true ⟨false, false⟩ overflowDigits).1 = .error Err.ERANGE ∧
    (state_store true ⟨false, false⟩ overflowDigits).1 ≠ .error Err.EINVAL := by
  refine ⟨rfl, ?_⟩
  intro h
  have h1 : (state_store true ⟨false, false⟩ overflowDigits).1 =
      Except.error Err.ERANGE := rfl
  rw [h1] at h
  simp at h

/-- C3 amended: any input the parser rejects leaves the state and line
untouched and propagates the parser's error, which is always `EINVAL`
(`InvalidInput`) or `ERANGE`; `ERANGE` arises only when the digit run's
value overflows `unsigned long`.  On the byte-stream surface a first
byte outside `{'0','1'}` fails with `EINVAL` and consumes nothing. -/
theorem C3_rejects_without_mutation :
    (∀ (driveOk : Bool) (d : GpioTallyData) (buf : List Char) (e : Err),
      kstrtoul buf = .error e → state_store driveOk d buf = (.error e, d)) ∧
    (∀ (buf : List Char) (e : Err),
      kstrtoul buf = .error e → e = .EINVAL ∨ e = .ERANGE) ∧
    (∀ buf : List Char, kstrtoul buf = .error .ERANGE →
      ULONG_MAX_SUCC ≤ decVal ((stripPlus buf).takeWhile Char.isDigit)) ∧
    (∀ (driveOk : Bool) (d : GpioTallyData) (c : Char) (count : Nat),
      c ≠ '0' → c ≠ '1' →
      tally_write driveOk d (some c) count = (.error Err.EINVAL, d)) := by
  refine ⟨?_, ?_, ?_, ?_⟩
  · intro driveOk d buf e h
    simp [state_store, h]
  · intro buf e h
    simp only [kstrtoul] at h
    split at h
    · exact Or.inr (Except.error.inj h).symm
    · split at h
      · exact Or.inl (Except.error.inj h).symm
      · split at h
        · cases h
        · exact Or.inl (Except.error.inj h).symm
  · intro buf h
    simp only [kstrtoul] at h
    split at h
    · assumption
    · split at h
      · simp at h
      · split at h
        · cases h
        · simp at h
  · intro driveOk d c count h0 h1
    simp [tally_write, h0, h1]

/-- C3 witness: a byte-stream write of `'x'` and an attribute store of
`"x"` are both rejected with `EINVAL`, nothing mutated. -/
theorem C3_rejects_without_mutation_witness :
    tally_write true ⟨true, false⟩ (some 'x') 1 = (.error Err.EINVAL, ⟨true, false⟩) ∧
    state_store true ⟨true, false⟩ ['x'] = (.error Err.EINVAL, ⟨true, false⟩) :=
  ⟨C3_rejects_without_mutation.2.2.2 true ⟨true, false⟩ 'x' 1 (by decide) (by decide),
   C3_rejects_without_mutation.1 true ⟨true, false⟩ ['x'] Err.EINVAL rfl⟩

/-! ## C5: byte-stream read semantics -/

/-- C5: a read on a fresh session (`f_pos = 0`) with `count ≥ 2`
produces exactly the two bytes `'0'`/`'1'` and `'\n'`; with any `count`
it produces the length-`count` prefix of those two bytes; the controller
state is never changed, and repeating the read on a fresh session gives
the identical result. -/
theorem C5_read_semantics (d : GpioTallyData) (count : Nat) :
    (2 ≤ count →
      ((tally_read d 0 count).1).1 = [if d.led_state then '1' else '0', '\n']) ∧
    ((tally_read d 0 count).1).1 =
      ([if d.led_state then '1' else '0', '\n']).take count ∧
    (tally_read d 0 count).2 = d ∧
    tally_read ((tally_read d 0 count).2) 0 count = tally_read d 0 count := by
  obtain ⟨led, line⟩ := d
  cases led <;> rcases count with _ | _ | n
  · exact ⟨fun h => absurd h (by decide), rfl, rfl, rfl⟩
  · exact ⟨fun h => absurd h (by decide), rfl, rfl, rfl⟩
  · refine ⟨fun _ => ?_, ?_, rfl, rfl⟩
    · have hm : min (n + 1 + 1) 2 = 2 := by omega
      simp [tally_read, hm]
    · have hm : min (n + 1 + 1) 2 = 2 := by omega
      simp [tally_read, hm]
  · exact ⟨fun h => absurd h (by decide), rfl, rfl, rfl⟩
  · exact ⟨fun h => absurd h (by decide), rfl, rfl, rfl⟩
  · refine ⟨fun _ => ?_, ?_, rfl, rfl⟩
    · have hm : min (n + 1 + 1) 2 = 2 := by omega
      simp [tally_read, hm]
    · have hm : min (n + 1 + 1) 2 = 2 := by omega
      simp [tally_read, hm]

/-- C5 witness: state off, fresh session, buffer of 2. -/
theorem C5_read_semantics_witness :
    ((tally_read ⟨false, true⟩ 0 2).1).1 = ['0', '\n'] :=
  (C5_read_semantics ⟨false, true⟩ 2).1 (by decide)

/-! ## C9: live controllers hold pairwise distinct ids -/

/-- Among `0 .. l.length` at least one number is missing from `l`. -/
lemma exists_le_not_mem (l : List Nat) :
    ∃ n ∈ List.range (l.length + 1), n ∉ l := by
  by_contra hc
  push_neg at hc
  have hsub : List.range (l.length + 1) ⊆ l := fun n hn => hc n hn
  have := ((List.nodup_range (l.length + 1)).subperm hsub).length_le
  simp at this

/-- The id the allocator hands out is free. -/
lemma smallestFree_not_mem (l : List Nat) : smallestFree l ∉ l := by
  obtain ⟨n, hn, hnl⟩ := exists_le_not_mem l
  have hfil : n ∈ (List.range (l.length + 1)).filter (fun m => !l.contains m) := by
    rw [List.mem_filter]
    exact ⟨hn, by simpa using hnl⟩
  unfold smallestFree
  cases hfl : (List.range (l.length + 1)).filter (fun m => !l.contains m) with
  | nil => rw [hfl] at hfil; cases hfil
  | cons a t =>
    have ha : a ∈ (List.range (l.length + 1)).filter (fun m => !l.contains m) := by
      rw [hfl]; exact List.mem_cons_self a t
    simpa using (List.mem_filter.mp ha).2

/-- Every probe/remove step preserves the id-management invariant. -/
lemma sysStep_inv {s t : TallySys} (hs : SysInv s) (h : SysStep s t) : SysInv t := by
  cases h with
  | probeOk =>
    obtain ⟨hnd, hsub⟩ := hs
    have hfree : idaAlloc s.ida ∉ s.ida := smallestFree_not_mem s.ida
    have hlive : idaAlloc s.ida ∉ s.live := fun hm => hfree (hsub _ hm)
    refine ⟨List.nodup_cons.mpr ⟨hlive, hnd⟩, ?_⟩
    intro i hi
    rcases List.mem_cons.mp hi with h1 | h1
    · exact h1 ▸ List.mem_cons_self _ _
    · exact List.mem_cons_of_mem _ (hsub _ h1)
  | probeFailEarly => exact hs
  | probeFailGpiod =>
    obtain ⟨hnd, hsub⟩ := hs
    exact ⟨hnd, fun i hi => List.mem_cons_of_mem _ (hsub i hi)⟩
  | probeFailUnwound => exact hs
  | removeCtl i hmem =>
    obtain ⟨hnd, hsub⟩ := hs
    refine ⟨List.Nodup.erase i hnd, ?_⟩
    intro j hj
    have hj2 := (List.Nodup.mem_erase_iff hnd).mp hj
    exact (List.mem_erase_of_ne hj2.1).mpr (hsub j hj2.2)

/-- The invariant holds in every reachable state. -/
lemma sysReach_inv (s : TallySys) (h : SysReach s) : SysInv s := by
  induction h with
  | init => exact ⟨List.nodup_nil, fun i hi => absurd hi (List.not_mem_nil i)⟩
  | step hr hst ih => exact sysStep_inv ih hst

/-- C9: after any reachable sequence of constructions (successful or
failed at any stage) and destructions, the ids of the currently-live
controllers are pairwise distinct — a freed or leaked id is never live
twice, and `ida_alloc` never hands a held id to a second controller. -/
theorem C9_live_ids_distinct (s : TallySys) (h : SysReach s) : s.live.Nodup :=
  (sysReach_inv s h).1

/-- C9 witness: two successful probes from module load yield live ids
1 and 0, distinct. -/
theorem C9_live_ids_distinct_witness :
    SysReach ⟨[1, 0], [1, 0]⟩ ∧ ([1, 0] : List Nat).Nodup := by
  have h1 : SysStep ⟨[], []⟩ ⟨[0], [0]⟩ := SysStep.probeOk ⟨[], []⟩
  have h2 : SysStep ⟨[0], [0]⟩ ⟨[1, 0], [1, 0]⟩ := SysStep.probeOk ⟨[0], [0]⟩
  have hr : SysReach ⟨[1, 0], [1, 0]⟩ :=
    SysReach.step (SysReach.step SysReach.init h1) h2
  exact ⟨hr, C9_live_ids_distinct _ hr⟩

/-! ## C10: attribute store tolerates one trailing newline -/

/-- A decimal digit is not the sign character the parser strips. -/
lemma digit_ne_plus {c : Char} (h : c.isDigit = true) : c ≠ '+' := by
  intro hc
  subst hc
  exact absurd h (by decide)

/-- Lemma: `takeWhile` keeps a list all of whose elements satisfy `p`. -/
lemma takeWhile_all (p : Char → Bool) (ds : List Char) (h : ∀ c ∈ ds, p c = true) :
    ds.takeWhile p = ds := by
  induction ds with
  | nil => rfl
  | cons a t ih =>
    rw [List.takeWhile_cons_of_pos (h a (List.mem_cons_self a t))]
    rw [ih (fun c hc => h c (List.mem_cons_of_mem a hc))]

/-- Lemma: `dropWhile` exhausts a list all of whose elements satisfy `p`. -/
lemma dropWhile_all (p : Char → Bool) (ds : List Char) (h : ∀ c ∈ ds, p c = true) :
    ds.dropWhile p = [] := by
  induction ds with
  | nil => rfl
  | cons a t ih =>
    rw [List.dropWhile_cons_of_pos (h a (List.mem_cons_self a t))]
    exact ih (fun c hc => h c (List.mem_cons_of_mem a hc))

/-- Splitting `ds ++ [x]` at the first non-`p` element when all of `ds`
satisfies `p` and `x` does not. -/
lemma takeWhile_all_append (p : Char → Bool) (ds : List Char) (x : Char)
    (h : ∀ c ∈ ds, p c = true) (hx : p x = false) :
    (ds ++ [x]).takeWhile p = ds ∧ (ds ++ [x]).dropWhile p = [x] := by
  induction ds with
  | nil =>
    constructor
    · simp [List.takeWhile, hx]
    · simp [List.dropWhile, hx]
  | cons a t ih =>
    have ha : p a = true := h a (List.mem_cons_self a t)
    have iht := ih (fun c hc => h c (List.mem_cons_of_mem a hc))
    constructor
    · rw [List.cons_append, List.takeWhile_cons_of_pos ha, iht.1]
    · rw [List.cons_append, List.dropWhile_cons_of_pos ha, iht.2]

/-- A string beginning with a digit loses nothing to the sign strip. -/
lemma stripPlus_digits (a : Char) (t : List Char) (ha : a.isDigit = true) :
    stripPlus (a :: t) = a :: t := by
  simp [stripPlus, digit_ne_plus ha]

/-- The parser accepts a bare in-range digit string. -/
lemma kstrtoul_digits (ds : List Char) (hne : ds ≠ [])
    (hdig : ∀ c ∈ ds, c.isDigit = true) (hlt : decVal ds < ULONG_MAX_SUCC) :
    kstrtoul ds = .ok (decVal ds) := by
  obtain ⟨a, t, rfl⟩ : ∃ a t, ds = a :: t := by
    cases ds with
    | nil => exact absurd rfl hne
    | cons a t => exact ⟨a, t, rfl⟩
  have hsp : stripPlus (a :: t) = a :: t :=
    stripPlus_digits a t (hdig a (List.mem_cons_self a t))
  simp only [kstrtoul, hsp, takeWhile_all Char.isDigit (a :: t) hdig,
    dropWhile_all Char.isDigit (a :: t) hdig]
  rw [if_neg (Nat.not_le.mpr hlt)]
  simp

/-- The parser accepts an in-range digit string with one trailing
newline, returning the same value. -/
lemma kstrtoul_digits_nl (ds : List Char) (hne : ds ≠ [])
    (hdig : ∀ c ∈ ds, c.isDigit = true) (hlt : decVal ds < ULONG_MAX_SUCC) :
    kstrtoul (ds ++ ['\n']) = .ok (decVal ds) := by
  obtain ⟨a, t, rfl⟩ : ∃ a t, ds = a :: t := by
    cases ds with
    | nil => exact absurd rfl hne
    | cons a t => exact ⟨a, t, rfl⟩
  have hsp : stripPlus ((a :: t) ++ ['\n']) = (a :: t) ++ ['\n'] := by
    rw [List.cons_append]
    exact stripPlus_digits a (t ++ ['\n']) (hdig a (List.mem_cons_self a t))
  have htw := takeWhile_all_append Char.isDigit (a :: t) '\n' hdig (by decide)
  simp only [kstrtoul, hsp, htw.1, htw.2]
  rw [if_neg (Nat.not_le.mpr hlt)]
  simp

/-- C10: for a non-empty in-range digit string `ds`, storing `ds`
followed by a single newline (as `echo` produces) succeeds — the parser
tolerates the newline — consumes all `ds.length + 1` bytes, and leaves
the controller exactly as storing `ds` alone would. -/
theorem C10_trailing_newline (driveOk : Bool) (d : GpioTallyData) (ds : List Char)
    (hne : ds ≠ []) (hdig : ∀ c ∈ ds, c.isDigit = true)
    (hlt : decVal ds < ULONG_MAX_SUCC) :
    kstrtoul (ds ++ ['\n']) = .ok (decVal ds) ∧
    (state_store driveOk d (ds ++ ['\n'])).1 = .ok (ds.length + 1) ∧
    (state_store driveOk d (ds ++ ['\n'])).2 = (state_store driveOk d ds).2 := by
  have h1 := kstrtoul_digits ds hne hdig hlt
  have h2 := kstrtoul_digits_nl ds hne hdig hlt
  refine ⟨h2, ?_, ?_⟩
  · simp [state_store, h2]
  · simp [state_store, h1, h2]

/-- C10 witness: storing `"1\n"` behaves as storing `"1"`. -/
theorem C10_trailing_newline_witness :
    kstrtoul ['1', '\n'] = .ok 1 ∧
    (state_store true ⟨false, false⟩ ['1', '\n']).1 = .ok 2 ∧
    (state_store true ⟨false, false⟩ ['1', '\n']).2 =
      (state_store true ⟨false, false⟩ ['1']).2 :=
  C10_trailing_newline true ⟨false, false⟩ ['1'] (by decide) (by decide) (by decide)
